import Mathlib

/-!
Verification of `src/packages/core/bin/generateComponents.cjs`: the model-name
normalizer (`parseModelName`) and the schema-to-recs translator
(`parseModelSchemaToRecs` and friends), embedded shallowly.  JavaScript string
operations are modelled on ASCII content, which is the only content the
program manipulates (identifiers and scalar type tokens).
-/

/-- Is the character one of `0-9`, `a-f`, `A-F`: the digits `parseInt`
accepts once the auto-detected hex prefix has selected radix 16. -/
def isHexDigitJs (c : Char) : Bool :=
  c.isDigit || ('a' ≤ c && c ≤ 'f') || ('A' ≤ c && c ≤ 'F')

/-- Whether a character list begins with a JavaScript hex prefix (`0x` or
`0X`) that is not followed by a hex digit.  On such input `parseInt` with no
radix argument auto-detects radix 16, consumes the prefix, finds no digits
at all, and returns `NaN` — even though the input begins with the digit
`0`. -/
def hexPrefixNaN (l : List Char) : Bool :=
  match l with
  | c :: x :: rest =>
    c = '0' && (x = 'x' || x = 'X') &&
      (match rest with
       | [] => true
       | h :: _ => !isHexDigitJs h)
  | _ => false

/-- Models the observable behaviour of JavaScript `isNaN(parseInt(s))` with
the radix auto-detected.  `parseInt` skips leading whitespace, accepts at
most one sign character, then auto-detects a `0x`/`0X` prefix: with the
prefix present it requires at least one hex digit after it (`"0x"`,
`"0xg"`, `"0xgreat"` are all `NaN`), and without it it requires a leading
decimal digit.  The source program only ever observes whether the result is
`NaN`, never its numeric value, so the model returns just that Boolean. -/
def jsParseIntIsNaN (s : String) : Bool :=
  match s.data.dropWhile Char.isWhitespace with
  | [] => true
  | c :: cs =>
    match (if c = '+' ∨ c = '-' then cs else c :: cs) with
    | [] => true
    | d :: ds => if hexPrefixNaN (d :: ds) then true else !d.isDigit

/-- Models JavaScript `s.charAt(i)`: the one-character string at index `i`,
or the empty string when `i` is out of range. -/
def jsCharAt (s : String) (i : Nat) : String :=
  match s.data.get? i with
  | some c => String.singleton c
  | none => ""

/-- Models JavaScript `s.toUpperCase()` on ASCII content. -/
def jsToUpperCase (s : String) : String :=
  ⟨s.data.map Char.toUpper⟩

/-- Models JavaScript `s.toLowerCase()` on ASCII content. -/
def jsToLowerCase (s : String) : String :=
  ⟨s.data.map Char.toLower⟩

/-- Models JavaScript `s.slice(i)` for a nonnegative index on ASCII content. -/
def jsSlice (s : String) (i : Nat) : String :=
  ⟨s.data.drop i⟩

/-- The arrow function mapped over the underscore-separated parts inside
`parseModelName`:

* if `!isNaN(parseInt(part))`, the part is returned unchanged;
* else if `part.length <= 3 || !isNaN(parseInt(part.charAt(0)))`, the part
  is fully uppercased;
* otherwise `part.charAt(0).toUpperCase() + part.slice(1).toLowerCase()`. -/
def transformPart (part : String) : String :=
  if jsParseIntIsNaN part = false then part
  else if part.length ≤ 3 ∨ jsParseIntIsNaN (jsCharAt part 0) = false then
    jsToUpperCase part
  else
    jsToUpperCase (jsCharAt part 0) ++ jsToLowerCase (jsSlice part 1)

/-- Splits a character list at every occurrence of a single separator
character; models JavaScript `s.split(sep)` for a one-character separator
(the result is never empty, and `"".split(sep)` is `[""]`). -/
def splitOnChar (sep : Char) : List Char → List (List Char)
  | [] => [[]]
  | c :: cs =>
    match splitOnChar sep cs with
    | [] => [[]]
    | p :: ps => if c = sep then [] :: p :: ps else (c :: p) :: ps

/-- Splits a character list at every occurrence of the two-character
separator `::`, scanning left to right without overlap; models JavaScript
`s.split("::")`. -/
def splitOnDoubleColon : List Char → List (List Char)
  | [] => [[]]
  | [c] => [[c]]
  | c :: d :: cs =>
    if c = ':' ∧ d = ':' then [] :: splitOnDoubleColon cs
    else
      match splitOnDoubleColon (d :: cs) with
      | [] => [[c]]
      | p :: ps => (c :: p) :: ps

/-- Models JavaScript `s.split("::")`. -/
def jsSplitDoubleColon (s : String) : List String :=
  (splitOnDoubleColon s.data).map (fun l => ⟨l⟩)

/-- Models JavaScript `s.split("_")`. -/
def jsSplitUnderscore (s : String) : List String :=
  (splitOnChar '_' s.data).map (fun l => ⟨l⟩)

/-- Whether a string's first character is an ASCII digit; this is exactly
when `isNaN(parseInt(s.charAt(0)))` is false, since a single character can
never form a hex prefix. -/
def firstCharIsDigit (s : String) : Bool :=
  match s.data with
  | [] => false
  | c :: _ => c.isDigit

/-- A manifest model descriptor; only the `name` field is consumed. -/
structure Model where
  name : String
deriving DecidableEq

/-- `parseModelName`: split the name on `::`, keep the last segment (`pop()`
on a nonempty array), split it on `_`, transform each part with
`transformPart`, and join with no separator. -/
def parseModelName (model : Model) : String :=
  String.join ((jsSplitUnderscore ((jsSplitDoubleColon model.name).getLastD "")).map transformPart)

/-- A schema node as produced by `sozo model schema --json`: a JSON object
with a `type` tag and a `content` payload.  The recognized tags are
`"primitive"` (payload carries `scalar_type`), `"struct"` (payload carries
`name` and `children`, each child a `name`/`member_type` pair), `"enum"`
(payload carries `name`; the variants are never inspected) and `"tuple"`
(payload is an array of nodes).  `other t` stands for a node whose `type`
tag `t` is any string different from those four. -/
inductive SchemaNode where
  | primitive (scalar_type : String)
  | struct (name : String) (children : List (String × SchemaNode))
  | enum (name : String)
  | tuple (elements : List SchemaNode)
  | other (type : String)

/-- The `cairoToRecsType` object literal: a fixed scalar-type dictionary. -/
def cairoToRecsType : List (String × String) :=
  [("bool", "RecsType.Boolean"),
   ("u8", "RecsType.Number"),
   ("u16", "RecsType.Number"),
   ("u32", "RecsType.Number"),
   ("u64", "RecsType.Number"),
   ("usize", "RecsType.Number"),
   ("u128", "RecsType.BigInt"),
   ("u256", "RecsType.BigInt"),
   ("felt252", "RecsType.BigInt"),
   ("contractaddress", "RecsType.BigInt")]

/-- A JavaScript value the translator can return for a node: either a
string (every table entry, the fallback, and every template-built
expression are strings), or a non-nullish, non-string object inherited from
`Object.prototype` when the property read walked the prototype chain;
`key` records which inherited member it is. -/
inductive JsValue where
  | str (value : String)
  | inheritedObject (key : String)
deriving DecidableEq

/-- The property names of `Object.prototype`: reading any of these on a
plain object literal returns an inherited, non-nullish value rather than
`undefined`.  Since the program lowercases the key before the read, only
`"constructor"` and `"__proto__"` — the all-lowercase names — are reachable
through it. -/
def objectPrototypeKeys : List String :=
  ["constructor", "hasOwnProperty", "isPrototypeOf", "propertyIsEnumerable",
   "toLocaleString", "toString", "valueOf", "__defineGetter__",
   "__defineSetter__", "__lookupGetter__", "__lookupSetter__", "__proto__"]

/-- The JavaScript property read `cairoToRecsType[key]`: an own key of the
object literal yields its table entry; a key naming a member inherited from
`Object.prototype` yields that inherited non-nullish object (so the `??`
that follows never fires on it); any other key reads `undefined`, modelled
as `none`. -/
def cairoToRecsTypeGet (key : String) : Option JsValue :=
  match cairoToRecsType.lookup key with
  | some v => some (.str v)
  | none =>
    if key ∈ objectPrototypeKeys then some (.inheritedObject key)
    else none

/-- `parseSchemaPrimitive`: lowercase the scalar type, push it onto `types`,
and return the result of the property read, with `?? "RecsType.String"`
replacing only a nullish (`undefined`) read.  Returns the value together
with the updated `types`. -/
def parseSchemaPrimitive (scalar_type : String) (types : List String) :
    JsValue × List String :=
  let scalarType := jsToLowerCase scalar_type
  ((cairoToRecsTypeGet scalarType).getD (.str "RecsType.String"),
   types ++ [scalarType])

/-- `parseSchemaEnum`: every enum translates to the fixed expression. -/
def parseSchemaEnum : String := "RecsType.Number"

/-- The text an `Object.prototype` member interpolates to inside a template
literal under Node: the inherited `constructor` function stringifies to its
native-code source text, and `__proto__` (the plain `Object.prototype`
object) to the default object `toString`. -/
def jsInheritedText (key : String) : String :=
  if key = "constructor" then "function Object() \x7b [native code] \x7d"
  else "[object Object]"

/-- The text a `JsValue` contributes to a template literal. -/
def jsValueText : JsValue → String
  | .str s => s
  | .inheritedObject key => jsInheritedText key

/-- Models JavaScript template-literal interpolation of the recursive call:
a returned value is stringified and spliced, while `undefined` (the value
returned when no dispatch branch matches) interpolates as the text
`undefined`. -/
def jsInterpolate : Option JsValue → String
  | some v => jsValueText v
  | none => "undefined"

mutual
/-- `parseModelSchemaToRecsImpl`: dispatch on the node's `type` tag.
Primitives delegate to `parseSchemaPrimitive`; structs push the struct's
name onto `customTypes` and then render as `parseSchemaStruct` does (the
brace-wrapping of the member renderings is written inline here so that the
mutual recursion stays structural; `parseSchemaStruct` below is that same
wrapping); enums push `"enum"` onto `types` and the enum's name onto
`customTypes` and return `parseSchemaEnum`; tuples render as
`parseSchemaTuple` does; any other tag falls off the `if`/`else if` chain,
returning `undefined` (modelled as `none`) and touching neither accumulator.
The JavaScript function mutates the two arrays; here it returns the
expression (or `none`) together with the updated `types` and
`customTypes`. -/
def parseModelSchemaToRecsImpl (schema : SchemaNode)
    (types customTypes : List String) :
    Option JsValue × List String × List String :=
  match schema with
  | .primitive scalar_type =>
    let r := parseSchemaPrimitive scalar_type types
    (some r.1, r.2, customTypes)
  | .struct name children =>
    let r := structMembers children types (customTypes ++ [name])
    (some (.str ("\x7b " ++ String.intercalate ", " r.1 ++ " \x7d")),
     r.2.1, r.2.2)
  | .enum name =>
    (some (.str parseSchemaEnum), types ++ ["enum"], customTypes ++ [name])
  | .tuple elements =>
    let r := tupleElems elements types customTypes
    (some (.str ("[ " ++ String.intercalate ", " r.1 ++ " ]")), r.2.1, r.2.2)
  | .other _ => (none, types, customTypes)

/-- The rendered member strings of a struct: each child becomes
`name: <recursive result>` in declared order, threading the accumulators
left to right exactly as the JavaScript `map` over the mutable arrays
does. -/
def structMembers (children : List (String × SchemaNode))
    (types customTypes : List String) :
    List String × List String × List String :=
  match children with
  | [] => ([], types, customTypes)
  | (name, member_type) :: rest =>
    let r := parseModelSchemaToRecsImpl member_type types customTypes
    let rr := structMembers rest r.2.1 r.2.2
    ((name ++ ": " ++ jsInterpolate r.1) :: rr.1, rr.2.1, rr.2.2)

/-- The rendered element strings of a tuple, threading the accumulators. -/
def tupleElems (elements : List SchemaNode)
    (types customTypes : List String) :
    List String × List String × List String :=
  match elements with
  | [] => ([], types, customTypes)
  | e :: rest =>
    let r := parseModelSchemaToRecsImpl e types customTypes
    let rr := tupleElems rest r.2.1 r.2.2
    ((jsInterpolate r.1) :: rr.1, rr.2.1, rr.2.2)
end

/-- `parseSchemaStruct`: render each child as `name: <recursive result>`,
join with `", "`, and wrap in braces. -/
def parseSchemaStruct (children : List (String × SchemaNode))
    (types customTypes : List String) :
    String × List String × List String :=
  let r := structMembers children types customTypes
  ("\x7b " ++ String.intercalate ", " r.1 ++ " \x7d", r.2.1, r.2.2)

/-- `parseSchemaTuple`: render each element recursively, join with `", "`,
and wrap in square brackets. -/
def parseSchemaTuple (elements : List SchemaNode)
    (types customTypes : List String) :
    String × List String × List String :=
  let r := tupleElems elements types customTypes
  ("[ " ++ String.intercalate ", " r.1 ++ " ]", r.2.1, r.2.2)

/-- `parseModelSchemaToRecs`: the root entry point.  A root whose `type` tag
is not `"struct"` throws `"unsupported root schema type"`; a struct root
delegates to `parseSchemaStruct` directly, without pushing the root's own
name onto `customTypes`. -/
def parseModelSchemaToRecs (schema : SchemaNode)
    (types customTypes : List String) :
    Except String (String × List String × List String) :=
  match schema with
  | .struct _ children => .ok (parseSchemaStruct children types customTypes)
  | _ => .error "unsupported root schema type"

/-- Whether a schema node's `type` tag is `"struct"`. -/
def SchemaNode.isStruct : SchemaNode → Bool
  | .struct _ _ => true
  | _ => false

/-- The scalar-to-target-type table exactly as the specification words it:
`bool` maps to the Boolean kind; `u8`, `u16`, `u32`, `u64` and `usize` map
to the Number kind; `u128`, `u256`, `felt252` and `contractaddress` map to
the BigInt kind; any other scalar type maps to the String-kind fallback.
Stated separately from `cairoToRecsType` so that the two can be compared. -/
def claimPrimitiveTarget (s : String) : String :=
  if s = "bool" then "RecsType.Boolean"
  else if s ∈ ["u8", "u16", "u32", "u64", "usize"] then "RecsType.Number"
  else if s ∈ ["u128", "u256", "felt252", "contractaddress"] then "RecsType.BigInt"
  else "RecsType.String"

/-- The value of the primitive translation per lowercased scalar type, as
amended: a key that names an `Object.prototype` member (after lowercasing
only `"constructor"` and `"__proto__"` are reachable) reads the inherited
non-nullish object, which bypasses the `??` fallback; every other key
follows the specification's table with its String-kind fallback. -/
def claimPrimitiveValue (s : String) : JsValue :=
  if s ∈ objectPrototypeKeys then .inheritedObject s
  else .str (claimPrimitiveTarget s)

mutual
/-- The pair (appended `types`, appended `customTypes`) that translating a
node contributes, in depth-first pre-order: a struct records its own name
before its children, a primitive or enum records itself where it is
visited. -/
def nodeDeltas : SchemaNode → List String × List String
  | .primitive scalar_type => ([jsToLowerCase scalar_type], [])
  | .struct name children => ((membersDeltas children).1, name :: (membersDeltas children).2)
  | .enum name => (["enum"], [name])
  | .tuple elements => elemsDeltas elements
  | .other _ => ([], [])

/-- Accumulator contributions of a struct's children, concatenated in
declared order. -/
def membersDeltas : List (String × SchemaNode) → List String × List String
  | [] => ([], [])
  | (_, member_type) :: rest =>
    ((nodeDeltas member_type).1 ++ (membersDeltas rest).1,
     (nodeDeltas member_type).2 ++ (membersDeltas rest).2)

/-- Accumulator contributions of a tuple's elements, concatenated in
order. -/
def elemsDeltas : List SchemaNode → List String × List String
  | [] => ([], [])
  | e :: rest =>
    ((nodeDeltas e).1 ++ (elemsDeltas rest).1,
     (nodeDeltas e).2 ++ (elemsDeltas rest).2)
end

mutual
/-- The expression value a node translates to, as a function of the node
alone (`none` models the `undefined` returned for an unrecognized tag). -/
def exprOf : SchemaNode → Option JsValue
  | .primitive scalar_type =>
    some ((cairoToRecsTypeGet (jsToLowerCase scalar_type)).getD
      (.str "RecsType.String"))
  | .struct _ children =>
    some (.str ("\x7b " ++ String.intercalate ", " (memberExprs children) ++ " \x7d"))
  | .enum _ => some (.str parseSchemaEnum)
  | .tuple elements =>
    some (.str ("[ " ++ String.intercalate ", " (elemExprs elements) ++ " ]"))
  | .other _ => none

/-- The rendered member strings of a struct as a function of the children
alone. -/
def memberExprs : List (String × SchemaNode) → List String
  | [] => []
  | (name, member_type) :: rest =>
    (name ++ ": " ++ jsInterpolate (exprOf member_type)) :: memberExprs rest

/-- The rendered element strings of a tuple as a function of the elements
alone. -/
def elemExprs : List SchemaNode → List String
  | [] => []
  | e :: rest => jsInterpolate (exprOf e) :: elemExprs rest
end

/-- Models `JSON.stringify` on an array of plain ASCII strings containing no
characters that JSON escapes (the program only serializes scalar-type tokens
and identifiers). -/
def jsonStringifyStringArray (l : List String) : String :=
  "[" ++ String.intercalate "," (l.map (fun s => "\"" ++ s ++ "\"")) ++ "]"

/-- The fixed document header built before the per-model loop. -/
def fileHeader : String :=
  "/* Autogenerated file. Do not edit manually. */\n\n" ++
  "import \x7b defineComponent, Type as RecsType, World \x7d from \"@dojoengine/recs\";\n\n" ++
  "export function defineContractComponents(world: World) \x7b\n  return \x7b\n"

/-- The per-model text block appended to `fileContent` on success. -/
def modelBlock (modelName recsTypeObject : String)
    (types customTypes : List String) : String :=
  "\t  " ++ modelName ++ ": (() => \x7b\n" ++
  "\t    return defineComponent(\n" ++
  "\t      world,\n" ++
  "\t      " ++ recsTypeObject ++ ",\n" ++
  "\t      \x7b\n" ++
  "\t        metadata: \x7b\n" ++
  "\t          name: \"" ++ modelName ++ "\",\n" ++
  "\t          types: " ++ jsonStringifyStringArray types ++ ",\n" ++
  "\t          customTypes: " ++ jsonStringifyStringArray customTypes ++ ",\n" ++
  "\t        \x7d,\n" ++
  "\t      \x7d\n" ++
  "\t    );\n" ++
  "\t  \x7d)(),\n"

/-- The message printed to standard error by the per-model `catch` block. -/
def errMsg (modelName rpcUrl e : String) : String :=
  "error when fetching schema for model \x27" ++ modelName ++ "\x27 from " ++
  rpcUrl ++ ": " ++ e

/-- The body of the per-model `try` block: fetch the schema for the
normalized model name (the `sozo model schema ... --json` subprocess plus
`JSON.parse`, abstracted as the `fetch` oracle) and translate it from the
root with fresh accumulators.  Any failure of either step lands in the
`catch` block. -/
def processModel (fetch : String → Except String SchemaNode) (model : Model) :
    Except String (String × List String × List String) := do
  let schema ← fetch (parseModelName model)
  parseModelSchemaToRecs schema [] []

/-- The observable outcome of a run: the process exit status, the lines
printed to standard error, and the output file's content when the final
`fs.writeFile` step is reached (`none` when the process exits before it). -/
structure RunOutcome where
  exitCode : Nat
  stderrLines : List String
  writtenFile : Option String

/-- The `manifest.models.forEach` loop followed by the single `fs.writeFile`
step.  On a per-model failure the `catch` block prints the error message and
calls `process.exit(0)`, so the loop stops and the write step is never
reached; when every model succeeds, the closing braces are appended and the
accumulated content is written. -/
def runModels (fetch : String → Except String SchemaNode) (rpcUrl : String) :
    List Model → String → RunOutcome
  | [], fileContent =>
    { exitCode := 0, stderrLines := [],
      writtenFile := some (fileContent ++ "  \x7d;\n\x7d\n") }
  | model :: rest, fileContent =>
    let modelName := parseModelName model
    match processModel fetch model with
    | .ok r =>
      runModels fetch rpcUrl rest
        (fileContent ++ modelBlock modelName r.1 r.2.1 r.2.2)
    | .error e =>
      { exitCode := 0, stderrLines := [errMsg modelName rpcUrl e],
        writtenFile := none }

/-- A whole run over the manifest's model list, starting from the fixed
document header. -/
def generateComponents (fetch : String → Except String SchemaNode)
    (rpcUrl : String) (models : List Model) : RunOutcome :=
  runModels fetch rpcUrl models fileHeader

theorem data_eq_imp_eq (a b : String) (h : a.data = b.data) : a = b :=
  congrArg String.mk h

theorem isDigit_ne_space (c : Char) (h : c.isDigit = true) : c ≠ ' ' := by
  intro hc
  subst hc
  exact absurd h (by decide)

theorem isDigit_ne_tab (c : Char) (h : c.isDigit = true) : c ≠ '\t' := by
  intro hc
  subst hc
  exact absurd h (by decide)

theorem isDigit_ne_cr (c : Char) (h : c.isDigit = true) : c ≠ '\r' := by
  intro hc
  subst hc
  exact absurd h (by decide)

theorem isDigit_ne_lf (c : Char) (h : c.isDigit = true) : c ≠ '\n' := by
  intro hc
  subst hc
  exact absurd h (by decide)

theorem isDigit_ne_plus (c : Char) (h : c.isDigit = true) : c ≠ '+' := by
  intro hc
  subst hc
  exact absurd h (by decide)

theorem isDigit_ne_minus (c : Char) (h : c.isDigit = true) : c ≠ '-' := by
  intro hc
  subst hc
  exact absurd h (by decide)

theorem isDigit_not_whitespace (c : Char) (h : c.isDigit = true) :
    c.isWhitespace = false := by
  simp [Char.isWhitespace, isDigit_ne_space c h, isDigit_ne_tab c h,
    isDigit_ne_cr c h, isDigit_ne_lf c h]

theorem isWhitespace_not_isDigit (c : Char) (h : c.isWhitespace = true) :
    c.isDigit = false := by
  simp [Char.isWhitespace] at h
  rcases h with ((h | h) | h) | h <;> subst h <;> decide

/-- On a part whose first character is an ASCII digit, `parseInt` yields
`NaN` exactly when the part is a hex prefix with no hex digit after it: the
digit is otherwise the accepted prefix. -/
theorem jsParseIntIsNaN_digit_head (c : Char) (cs : List Char)
    (h : c.isDigit = true) :
    jsParseIntIsNaN ⟨c :: cs⟩ = hexPrefixNaN (c :: cs) := by
  cases hx : hexPrefixNaN (c :: cs) <;>
    simp [jsParseIntIsNaN, List.dropWhile, isDigit_not_whitespace c h,
      isDigit_ne_plus c h, isDigit_ne_minus c h, h, hx]

/-- `isNaN(parseInt(s.charAt(0)))` holds exactly when the first character is
not a digit: a single character can never form a hex prefix. -/
theorem jsParseIntIsNaN_charAt_zero (s : String) :
    jsParseIntIsNaN (jsCharAt s 0) = !firstCharIsDigit s := by
  cases s with
  | mk l =>
    cases l with
    | nil => decide
    | cons c cs =>
      show jsParseIntIsNaN ⟨[c]⟩ = !c.isDigit
      by_cases hw : c.isWhitespace = true
      · simp [jsParseIntIsNaN, List.dropWhile, hw,
          isWhitespace_not_isDigit c hw]
      · have hw2 : c.isWhitespace = false := by simpa using hw
        by_cases hs : c = '+' ∨ c = '-'
        · have hd : c.isDigit = false := by
            rcases hs with h | h <;> subst h <;> decide
          simp [jsParseIntIsNaN, List.dropWhile, hw2, hs, hd]
        · simp [jsParseIntIsNaN, List.dropWhile, hw2, hs, hexPrefixNaN]

/-- A nonempty all-digit part never yields `NaN` from `parseInt`: its second
character, when present, is a digit, so no hex prefix can form. -/
theorem jsParseIntIsNaN_all_digits (c : Char) (cs : List Char)
    (h : ∀ x ∈ c :: cs, x.isDigit = true) :
    jsParseIntIsNaN ⟨c :: cs⟩ = false := by
  have hc : c.isDigit = true := h c (List.mem_cons_self c cs)
  rw [jsParseIntIsNaN_digit_head c cs hc]
  cases cs with
  | nil => rfl
  | cons x rest =>
    have hx : x.isDigit = true := h x (by simp)
    have h1 : x ≠ 'x' := by intro e; subst e; exact absurd hx (by decide)
    have h2 : x ≠ 'X' := by intro e; subst e; exact absurd hx (by decide)
    simp [hexPrefixNaN, h1, h2]

/-- The `cairoToRecsType` dictionary lookup with its `??` fallback agrees
with the table as the specification words it. -/
theorem cairoToRecsType_lookup_eq (s : String) :
    (cairoToRecsType.lookup s).getD "RecsType.String" = claimPrimitiveTarget s := by
  simp only [cairoToRecsType, claimPrimitiveTarget, List.lookup,
    List.mem_cons, List.mem_singleton, List.not_mem_nil, or_false]
  split_ifs with h1 h2 h3
  · subst h1
    rfl
  · rcases h2 with h | h | h | h | h <;> subst h <;> rfl
  · rcases h3 with h | h | h | h <;> subst h <;> rfl
  · push_neg at h2 h3
    obtain ⟨a2, a3, a4, a5, a6⟩ := h2
    obtain ⟨b1, b2, b3, b4⟩ := h3
    simp [beq_eq_false_iff_ne.mpr h1, beq_eq_false_iff_ne.mpr a2,
      beq_eq_false_iff_ne.mpr a3, beq_eq_false_iff_ne.mpr a4,
      beq_eq_false_iff_ne.mpr a5, beq_eq_false_iff_ne.mpr a6,
      beq_eq_false_iff_ne.mpr b1, beq_eq_false_iff_ne.mpr b2,
      beq_eq_false_iff_ne.mpr b3, beq_eq_false_iff_ne.mpr b4]

/-- The full property read with its `??` fallback agrees with the amended
per-key value: own keys follow the table, `Object.prototype` member names
read the inherited object, and everything else falls back to the String
kind. -/
theorem cairoToRecsTypeGet_eq (k : String) :
    (cairoToRecsTypeGet k).getD (.str "RecsType.String") =
      claimPrimitiveValue k := by
  by_cases hp : k ∈ objectPrototypeKeys
  · simp only [objectPrototypeKeys, List.mem_cons, List.not_mem_nil,
      or_false] at hp
    rcases hp with h | h | h | h | h | h | h | h | h | h | h | h <;>
      subst h <;> rfl
  · cases hl : cairoToRecsType.lookup k with
    | some v =>
      have hv := cairoToRecsType_lookup_eq k
      rw [hl] at hv
      simp only [Option.getD_some] at hv
      simp [cairoToRecsTypeGet, claimPrimitiveValue, hl, hp, hv]
    | none =>
      have hv := cairoToRecsType_lookup_eq k
      rw [hl] at hv
      simp only [Option.getD_none] at hv
      simp [cairoToRecsTypeGet, claimPrimitiveValue, hl, hp, ← hv]

mutual
/-- Translating a node returns the expression determined by the node alone,
and extends each accumulator by exactly that node's pre-order
contribution. -/
theorem parseModelSchemaToRecsImpl_spec :
    ∀ (schema : SchemaNode) (types customTypes : List String),
      parseModelSchemaToRecsImpl schema types customTypes =
        (exprOf schema, types ++ (nodeDeltas schema).1,
         customTypes ++ (nodeDeltas schema).2)
  | .primitive st, types, customTypes => by
    simp [parseModelSchemaToRecsImpl, parseSchemaPrimitive, exprOf, nodeDeltas]
  | .struct name children, types, customTypes => by
    have h := structMembers_spec children types (customTypes ++ [name])
    simp [parseModelSchemaToRecsImpl, exprOf, nodeDeltas, h]
  | .enum name, types, customTypes => by
    simp [parseModelSchemaToRecsImpl, exprOf, nodeDeltas]
  | .tuple elements, types, customTypes => by
    have h := tupleElems_spec elements types customTypes
    simp [parseModelSchemaToRecsImpl, exprOf, nodeDeltas, h]
  | .other t, types, customTypes => by
    simp [parseModelSchemaToRecsImpl, exprOf, nodeDeltas]

/-- `structMembers` renders the member strings determined by the children
alone and extends each accumulator by the children's pre-order
contributions in declared order. -/
theorem structMembers_spec :
    ∀ (children : List (String × SchemaNode)) (types customTypes : List String),
      structMembers children types customTypes =
        (memberExprs children, types ++ (membersDeltas children).1,
         customTypes ++ (membersDeltas children).2)
  | [], types, customTypes => by
    simp [structMembers, memberExprs, membersDeltas]
  | (name, member_type) :: rest, types, customTypes => by
    have h1 := parseModelSchemaToRecsImpl_spec member_type types customTypes
    have h2 := structMembers_spec rest (types ++ (nodeDeltas member_type).1)
      (customTypes ++ (nodeDeltas member_type).2)
    simp [structMembers, memberExprs, membersDeltas, h1, h2]

/-- `tupleElems` renders the element strings determined by the elements
alone and extends each accumulator by the elements' pre-order contributions
in order. -/
theorem tupleElems_spec :
    ∀ (elements : List SchemaNode) (types customTypes : List String),
      tupleElems elements types customTypes =
        (elemExprs elements, types ++ (elemsDeltas elements).1,
         customTypes ++ (elemsDeltas elements).2)
  | [], types, customTypes => by
    simp [tupleElems, elemExprs, elemsDeltas]
  | e :: rest, types, customTypes => by
    have h1 := parseModelSchemaToRecsImpl_spec e types customTypes
    have h2 := tupleElems_spec rest (types ++ (nodeDeltas e).1)
      (customTypes ++ (nodeDeltas e).2)
    simp [tupleElems, elemExprs, elemsDeltas, h1, h2]
end

/-- When some model in the list fails to fetch or translate, the run exits
with status 0, never reaches the write step, and standard error carries
exactly the message for the first failing model. -/
theorem runModels_fail (fetch : String → Except String SchemaNode)
    (rpcUrl : String) (models : List Model) (acc : String)
    (h : ∃ m ∈ models, ∃ e, processModel fetch m = .error e) :
    (runModels fetch rpcUrl models acc).exitCode = 0 ∧
    (runModels fetch rpcUrl models acc).writtenFile = none ∧
    ∃ m e, m ∈ models ∧ processModel fetch m = .error e ∧
      (runModels fetch rpcUrl models acc).stderrLines =
        [errMsg (parseModelName m) rpcUrl e] := by
  induction models generalizing acc with
  | nil => simp at h
  | cons m rest ih =>
    rcases h with ⟨m0, hm0, e0, he0⟩
    cases hpm : processModel fetch m with
    | ok r =>
      have hmem : m0 ∈ rest := by
        rcases List.mem_cons.mp hm0 with h1 | h1
        · rw [h1, hpm] at he0
          cases he0
        · exact h1
      have hrec := ih (acc ++ modelBlock (parseModelName m) r.1 r.2.1 r.2.2)
        ⟨m0, hmem, e0, he0⟩
      obtain ⟨hc, hw, mm, ee, hmm, hee, hss⟩ := hrec
      refine ⟨?_, ?_, mm, ee, List.mem_cons_of_mem m hmm, hee, ?_⟩
      · simpa [runModels, hpm] using hc
      · simpa [runModels, hpm] using hw
      · simpa [runModels, hpm] using hss
    | error e =>
      exact ⟨by simp [runModels, hpm], by simp [runModels, hpm],
        m, e, List.mem_cons_self m rest, hpm, by simp [runModels, hpm]⟩

/-- Claim C1 (counterexample): the claim states that a part that does not
parse entirely as an integer and whose first character is a digit (such as
`"128balance"`) is fully uppercased to `"128BALANCE"`; but `parseInt`
accepts the digit prefix `128`, so the integer branch fires first and the
part is returned unchanged. -/
theorem claim_c1_counterexample :
    parseModelName ⟨"128balance"⟩ = "128balance" ∧
    parseModelName ⟨"128balance"⟩ ≠ "128BALANCE" := by
  decide

/-- Claim C1 (amended): for every underscore-separated part on which the
code's integer check fails — `parseInt` returns `NaN`, which is not the
same as not parsing entirely as an integer: `"128balance"` has a parsable
digit prefix and is caught by the first branch instead — if the part's
length is at most 3 or its first character is a digit, normalize returns
the part fully uppercased (e.g. `"u8"` becomes `"U8"`, and `"0xgreat"`,
digit-initial yet `NaN` through the hex prefix, becomes `"0XGREAT"`). -/
theorem claim_c1_uppercase_rule (part : String)
    (h : jsParseIntIsNaN part = true)
    (hcond : part.length ≤ 3 ∨ firstCharIsDigit part = true) :
    transformPart part = jsToUpperCase part := by
  have hca := jsParseIntIsNaN_charAt_zero part
  rcases hcond with hl | hd
  · simp [transformPart, h, hl]
  · rw [hd] at hca
    simp only [Bool.not_true] at hca
    simp [transformPart, h, hca]

theorem claim_c1_witness :
    jsParseIntIsNaN "0xgreat" = true ∧ firstCharIsDigit "0xgreat" = true ∧
    transformPart "0xgreat" = jsToUpperCase "0xgreat" :=
  ⟨by decide, by decide,
    claim_c1_uppercase_rule "0xgreat" (by decide) (Or.inr (by decide))⟩

/-- Claim C2: root translation fails with the unsupported-root-schema error
exactly when the root node's kind is not `struct`, and never raises it on a
struct root. -/
theorem claim_c2_root_error (schema : SchemaNode)
    (types customTypes : List String) :
    parseModelSchemaToRecs schema types customTypes =
      .error "unsupported root schema type" ↔ schema.isStruct = false := by
  cases schema <;> simp [parseModelSchemaToRecs, SchemaNode.isStruct]

/-- Claim C3 (counterexample): the claim states that every scalar type
absent from the table maps to the String-kind fallback, but the property
read `cairoToRecsType["constructor"]` walks the prototype chain and returns
the inherited `Object.prototype.constructor`, a non-nullish value on which
`??` never fires; the fallback is bypassed even though the lowercased key is
still appended to `types`. -/
theorem claim_c3_counterexample :
    (parseModelSchemaToRecsImpl (.primitive "constructor") [] []).1 ≠
      some (JsValue.str "RecsType.String") ∧
    (parseModelSchemaToRecsImpl (.primitive "constructor") [] []).1 =
      some (JsValue.inheritedObject "constructor") ∧
    (parseModelSchemaToRecsImpl (.primitive "constructor") [] []).2.1 =
      ["constructor"] := by
  decide

/-- Claim C3 (amended): translating a primitive node appends the lowercased
scalar type to `types`, leaves `customTypes` untouched, and returns the
target given by the table as the specification words it (`bool` to Boolean
kind; `u8`, `u16`, `u32`, `u64`, `usize` to Number kind; `u128`, `u256`,
`felt252`, `contractaddress` to BigInt kind; anything else to the
String-kind fallback) — except when the lowercased scalar type names a
member inherited from `Object.prototype` (`"constructor"` or
`"__proto__"`): the read then returns that inherited non-nullish object and
the `??` fallback does not fire, though the key is still appended to
`types`. -/
theorem claim_c3_primitive_amended (scalar_type : String)
    (types customTypes : List String) :
    parseModelSchemaToRecsImpl (.primitive scalar_type) types customTypes =
      (some (claimPrimitiveValue (jsToLowerCase scalar_type)),
       types ++ [jsToLowerCase scalar_type], customTypes) := by
  simp [parseModelSchemaToRecsImpl, parseSchemaPrimitive,
    cairoToRecsTypeGet_eq]

/-- Claim C4: accumulator appends happen in depth-first pre-order: a
struct's own name lands on `customTypes` before all contributions of its
children, and in particular an outer struct's name is appended before a
nested inner struct's name. -/
theorem claim_c4_preorder :
    (∀ (name : String) (children : List (String × SchemaNode))
        (types customTypes : List String),
      (parseModelSchemaToRecsImpl (.struct name children)
          types customTypes).2.2 =
        customTypes ++ name :: (membersDeltas children).2) ∧
    (∀ (outer field inner : String) (children : List (String × SchemaNode))
        (types customTypes : List String),
      ∃ rest,
        (parseModelSchemaToRecsImpl
            (.struct outer [(field, .struct inner children)])
            types customTypes).2.2 =
          customTypes ++ outer :: inner :: rest) := by
  constructor
  · intro name children types customTypes
    simp [parseModelSchemaToRecsImpl_spec, nodeDeltas]
  · intro outer field inner children types customTypes
    exact ⟨(membersDeltas children).2,
      by simp [parseModelSchemaToRecsImpl_spec, nodeDeltas, membersDeltas]⟩

/-- Claim C5: root translation of a struct with children
`[a: primitive u8, b: primitive felt252]` returns the object expression
with the Number and BigInt kinds, `types = ["u8", "felt252"]` and
`customTypes = []` — whatever the root struct's own name is, it is not
appended to `customTypes`. -/
theorem claim_c5_round_trip (name : String) :
    parseModelSchemaToRecs
        (.struct name [("a", .primitive "u8"), ("b", .primitive "felt252")])
        [] [] =
      .ok ("\x7b a: RecsType.Number, b: RecsType.BigInt \x7d",
        ["u8", "felt252"], []) := rfl

/-- Claim C6: a part that parses entirely as an integer literal (nonempty,
all ASCII digits) is returned unchanged by the per-part transformation of
normalize. -/
theorem claim_c6_integer_part (part : String) (h1 : part ≠ "")
    (h2 : ∀ c ∈ part.data, c.isDigit = true) : transformPart part = part := by
  cases part with
  | mk l =>
    cases l with
    | nil => exact absurd rfl h1
    | cons c cs =>
      simp [transformPart, jsParseIntIsNaN_all_digits c cs h2]

theorem claim_c6_witness :
    ("123" : String) ≠ "" ∧ (∀ c ∈ ("123" : String).data, c.isDigit = true) ∧
    transformPart "123" = "123" :=
  ⟨by decide, by decide, claim_c6_integer_part "123" (by decide) (by decide)⟩

/-- Claim C7: the expression string returned by the recursive translate
function depends only on the schema node: two runs from different initial
accumulator contents return identical expressions. -/
theorem claim_c7_expr_independent (schema : SchemaNode)
    (types customTypes types2 customTypes2 : List String) :
    (parseModelSchemaToRecsImpl schema types customTypes).1 =
      (parseModelSchemaToRecsImpl schema types2 customTypes2).1 := by
  simp [parseModelSchemaToRecsImpl_spec]

/-- Claim C8: when fetching or translating fails for some model in the
manifest, the run exits with status 0, prints to standard error the message
naming the (first failing) model and the endpoint, and the final write step
is never reached, so no output file is produced. -/
theorem claim_c8_failure_aborts (fetch : String → Except String SchemaNode)
    (rpcUrl : String) (models : List Model)
    (h : ∃ m ∈ models, ∃ e, processModel fetch m = .error e) :
    (generateComponents fetch rpcUrl models).exitCode = 0 ∧
    (generateComponents fetch rpcUrl models).writtenFile = none ∧
    ∃ m e, m ∈ models ∧ processModel fetch m = .error e ∧
      (generateComponents fetch rpcUrl models).stderrLines =
        [errMsg (parseModelName m) rpcUrl e] :=
  runModels_fail fetch rpcUrl models fileHeader h

theorem claim_c8_witness :
    (∃ m ∈ [Model.mk "dojo_examples::position"], ∃ e,
        processModel (fun _ => .error "fetch failed") m = .error e) ∧
    (generateComponents (fun _ => .error "fetch failed")
        "http://localhost:5050" [Model.mk "dojo_examples::position"]).exitCode
      = 0 ∧
    (generateComponents (fun _ => .error "fetch failed")
        "http://localhost:5050"
        [Model.mk "dojo_examples::position"]).writtenFile = none := by
  have hfail : ∃ m ∈ [Model.mk "dojo_examples::position"], ∃ e,
      processModel (fun _ => .error "fetch failed") m = .error e :=
    ⟨Model.mk "dojo_examples::position", by simp, "fetch failed", rfl⟩
  have hmain := claim_c8_failure_aborts (fun _ => .error "fetch failed")
    "http://localhost:5050" [Model.mk "dojo_examples::position"] hfail
  exact ⟨hfail, hmain.1, hmain.2.1⟩

/-- Claim C9 (counterexample): the claim states that every digit-initial
part is returned verbatim regardless of its remaining characters and that
the digit-initial uppercase branch is unreachable; but `"0xgreat"` is
digit-initial, `parseInt` returns `NaN` on it (auto-detected hex prefix
with no hex digit after it), and precisely the digit-subcondition branch
fires, uppercasing it to `"0XGREAT"`. -/
theorem claim_c9_counterexample :
    Char.isDigit '0' = true ∧
    transformPart "0xgreat" ≠ "0xgreat" ∧
    transformPart "0xgreat" = "0XGREAT" := by
  decide

/-- Claim C9 (amended): a part whose first character is an ASCII digit is
returned verbatim, unless it begins with a hex prefix `0x`/`0X` not
followed by a hex digit — exactly then `parseInt` returns `NaN` on the part
and normalize uppercases it fully (the length or digit-first subcondition
necessarily holds, since the first character `0` is a digit). -/
theorem claim_c9_digit_head (c : Char) (cs : List Char)
    (h : c.isDigit = true) :
    transformPart ⟨c :: cs⟩ =
      (if hexPrefixNaN (c :: cs) = true then jsToUpperCase ⟨c :: cs⟩
       else ⟨c :: cs⟩) := by
  have hn := jsParseIntIsNaN_digit_head c cs h
  by_cases hx : hexPrefixNaN (c :: cs) = true
  · have hnt : jsParseIntIsNaN ⟨c :: cs⟩ = true := by rw [hn, hx]
    have hca := jsParseIntIsNaN_charAt_zero ⟨c :: cs⟩
    have hfd : firstCharIsDigit ⟨c :: cs⟩ = true := h
    rw [hfd] at hca
    simp only [Bool.not_true] at hca
    simp [transformPart, hnt, hca, hx]
  · have hx2 : hexPrefixNaN (c :: cs) = false := by simpa using hx
    rw [hx2] at hn
    simp [transformPart, hn, hx2]

theorem claim_c9_witness :
    Char.isDigit '1' = true ∧ Char.isDigit '0' = true ∧
    transformPart ⟨'1' :: "28balance".data⟩ = ⟨'1' :: "28balance".data⟩ ∧
    transformPart ⟨'0' :: "xgreat".data⟩ =
      jsToUpperCase ⟨'0' :: "xgreat".data⟩ := by
  refine ⟨by decide, by decide, ?_, ?_⟩
  · have h := claim_c9_digit_head '1' "28balance".data (by decide)
    rw [h, if_neg (by decide)]
  · have h := claim_c9_digit_head '0' "xgreat".data (by decide)
    rw [h, if_pos (by decide)]

/-- Claim C10: a non-root node with an unrecognized kind produces no error
and no expression (`undefined`, modelled as `none`) and appends to neither
accumulator; the `undefined` value is then silently interpolated into a
containing struct's rendered text. -/
theorem claim_c10_unknown_kind (t field : String)
    (types customTypes : List String) :
    parseModelSchemaToRecsImpl (.other t) types customTypes =
      (none, types, customTypes) ∧
    (parseSchemaStruct [(field, .other t)] types customTypes).1 =
      "\x7b " ++ field ++ ": undefined \x7d" := by
  constructor
  · simp [parseModelSchemaToRecsImpl]
  · have h1 : (parseSchemaStruct [(field, .other t)] types customTypes).1 =
        "\x7b " ++ (field ++ ": " ++ "undefined") ++ " \x7d" := rfl
    rw [h1]
    apply data_eq_imp_eq
    have h2 : (": ".data ++ ("undefined".data ++ " \x7d".data) : List Char) =
        ": undefined \x7d".data := by decide
    simp [List.append_assoc, h2]
